import Mathlib

/-!
# Verification of the image-converter batch conversion workflow

Shallow embedding of the repository's conversion endpoint
(`src/app/api/convert/route.js`, handler `POST`) and of the client-side
ZIP packaging loop (`src/app/page.jsx`, `handleDownloadAll`), together
with theorems settling the specification's claims about them.

The external image codec (the `sharp` library) is opaque third-party
code; following the specification it is modelled as an abstract call
that either succeeds with some encoded payload or fails with some
message.  Everything else (validation order, the per-file loop, response
shaping, output naming, ZIP entry selection) is translated directly from
the JavaScript source.
-/

namespace ImageConverter

/-! ## Configuration constants (`route.js` lines 5-9) -/

/-- `MAX_FILE_SIZE_API = 100 * 1024 * 1024` — per-file size ceiling in bytes. -/
def MAX_FILE_SIZE_API : Nat := 100 * 1024 * 1024

/-- `DEFAULT_QUALITY = 80` — quality for lossy formats. -/
def DEFAULT_QUALITY : Nat := 80

/-- `SUPPORTED_OUTPUT_FORMATS = ['webp', 'jpeg', 'png', 'avif', 'gif']`.
Note that `'jpg'` is not a member of this list. -/
def SUPPORTED_OUTPUT_FORMATS : List String := ["webp", "jpeg", "png", "avif", "gif"]

/-! ## Input model

One entry of `formData.getAll('files')`.  An entry is either a `File`
object or some other form value (`route.js` line 61 checks
`file instanceof File`).  For a `File` we keep the fields the handler
reads (`name`, `size`, `type`) plus the abstract behaviour of the opaque
codec on the file's bytes: whether decoding/encoding succeeds
(`codecOk`), the base64 text of the converted buffer on success
(`outBase64`), the message carried by the codec's error on failure
(`codecMsg`, the empty string standing for a missing message), and the
`hasAlpha` flag that `sharp`'s `metadata()` reports for the image. -/

structure FilePart where
  name : String
  size : Nat
  type : String
  hasAlpha : Bool
  codecOk : Bool
  outBase64 : String
  codecMsg : String
  deriving Repr, DecidableEq

inductive FormEntry where
  /-- an entry that is an actual `File` object -/
  | filePart (f : FilePart)
  /-- an entry that is not a `File` object (`!(file instanceof File)`) -/
  | nonFile
  deriving Repr, DecidableEq

/-- A parsed conversion request: the `files` entries in submission order
and the raw `outputFormat` form field (`none` when the field is absent). -/
structure ConvertRequest where
  files : List FormEntry
  outputFormat : Option String
  deriving Repr, DecidableEq

/-! ## Output format resolution (`route.js` line 40)

`formData.get('outputFormat')?.toLowerCase() || 'webp'` — lower-case the
field if present, and fall back to `'webp'` when the field is absent or
the lower-cased string is empty (the empty string is falsy in JS). -/

/-- ASCII lower-casing of one character, as `String.prototype.toLowerCase`
acts on the ASCII range (the only range relevant to format names). -/
def jsCharLower (c : Char) : Char :=
  if 'A' ≤ c ∧ c ≤ 'Z' then Char.ofNat (c.toNat + 32) else c

/-- `s.toLowerCase()` restricted to ASCII case mapping. -/
def jsToLower (s : String) : String := String.mk (s.data.map jsCharLower)

/-- `formData.get('outputFormat')?.toLowerCase() || 'webp'`. -/
def resolveOutputFormat (raw : Option String) : String :=
  match raw with
  | none => "webp"
  | some s => let l := jsToLower s; if l = "" then "webp" else l

/-- character-list version of `String.prototype.startsWith`. -/
def isPre : List Char → List Char → Bool
  | [], _ => true
  | _ :: _, [] => false
  | p :: ps, c :: cs => p = c && isPre ps cs

/-- `s.startsWith(p)`. -/
def jsStartsWith (s p : String) : Bool := isPre p.data s.data

/-! ## Node's `path.parse(...).name` (`route.js` line 114)

Transliteration of Node.js `path.posix.parse`, keeping only what is
needed to produce the `name` field (base name without the extension).
The scan walks the string right-to-left tracking the start of the last
path component, the position of the right-most dot, and the `preDotState`
flag exactly as in `lib/path.js`. -/

structure ParseScanState where
  startDot : Int
  startPart : Nat
  endIdx : Int
  matchedSlash : Bool
  preDotState : Int
  deriving Repr, DecidableEq

/-- The right-to-left scan loop of `posix.parse`: `fuel` is one more than
the index to process next, so the call with `fuel = s.length` processes
indices `s.length - 1, …, startIdx`.  A `/` found after a non-slash
character sets `startPart` and breaks out of the loop. -/
def parseScanGo (chars : List Char) (startIdx : Nat) : ParseScanState → Nat → ParseScanState
  | st, 0 => st
  | st, Nat.succ i =>
    if i < startIdx then st
    else
      let c := chars.getD i ' '
      if c = '/' then
        if ¬ st.matchedSlash then { st with startPart := i + 1 }
        else parseScanGo chars startIdx st i
      else
        let st1 := if st.endIdx = -1 then { st with matchedSlash := false, endIdx := (i : Int) + 1 } else st
        let st2 :=
          if c = '.' then
            if st1.startDot = -1 then { st1 with startDot := (i : Int) }
            else if st1.preDotState ≠ 1 then { st1 with preDotState := 1 }
            else st1
          else if st1.startDot ≠ -1 then { st1 with preDotState := -1 }
          else st1
        parseScanGo chars startIdx st2 i

/-- `path.slice(a, b)` on the character list. -/
def sliceChars (chars : List Char) (a b : Nat) : String :=
  String.mk ((chars.drop a).take (b - a))

/-- `path.parse(s).name` for POSIX paths: the final path component with
its extension removed, subject to Node's dot rules (a lone leading dot
is not an extension, `..` has no extension, a trailing dot is an
extension of its own). -/
def pathParseName (s : String) : String :=
  let chars := s.data
  let len := chars.length
  if len = 0 then "" else
  let isAbsolute := chars.getD 0 ' ' = '/'
  let start := if isAbsolute then 1 else 0
  let st := parseScanGo chars start ⟨-1, 0, -1, true, 0⟩ len
  let sliceStart := if st.startPart = 0 ∧ isAbsolute then 1 else st.startPart
  if st.startDot = -1 ∨ st.endIdx = -1 ∨ st.preDotState = 0 ∨
      (st.preDotState = 1 ∧ st.startDot = st.endIdx - 1 ∧ st.startDot = (st.startPart : Int) + 1) then
    if st.endIdx = -1 then "" else sliceChars chars sliceStart st.endIdx.toNat
  else
    sliceChars chars sliceStart st.startDot.toNat

/-! ## Output naming (`route.js` lines 114-121) -/

/-- membership in the character class `[a-zA-Z0-9_-]`. -/
def isSafeChar (c : Char) : Bool :=
  ('a' ≤ c ∧ c ≤ 'z') ∨ ('A' ≤ c ∧ c ≤ 'Z') ∨ ('0' ≤ c ∧ c ≤ '9') ∨ c = '_' ∨ c = '-'

/-- `baseName.replace(/[^a-zA-Z0-9_-]/g, '_')`. -/
def sanitizeBaseName (s : String) : String :=
  String.mk (s.data.map (fun c => if isSafeChar c then c else '_'))

/-- `(outputFormat === 'jpeg') ? 'jpg' : outputFormat`. -/
def outputExtensionOf (fmt : String) : String :=
  if fmt = "jpeg" then "jpg" else fmt

/-- The full output file name: sanitized parsed base name, a dot, and the
canonical output extension. -/
def outputFilenameOf (originalName fmt : String) : String :=
  sanitizeBaseName (pathParseName originalName) ++ "." ++ outputExtensionOf fmt

/-- `image/<ext>` MIME string. -/
def mimeTypeOf (fmt : String) : String := "image/" ++ outputExtensionOf fmt

/-- `data:<mime>;base64,<payload>`. -/
def dataUrlOf (fmt b64 : String) : String :=
  "data:" ++ mimeTypeOf fmt ++ ";base64," ++ b64

/-! ## Error messages (`route.js` lines 47, 54, 62, 70-79, 136) -/

/-- two-digit rendering of a value below 100. -/
def pad2 (k : Nat) : String := if k < 10 then "0" ++ toString k else toString k

/-- `(size / 1024 / 1024).toFixed(2)`.  For any realistic size
(`size < 2^53`) the JS double `size / 1024 / 1024` is exactly
`size / 2^20`, so `toFixed(2)` rounds `100 * size / 2^20` to the nearest
integer, ties away from zero, and prints it with two decimals. -/
def toFixed2MB (size : Nat) : String :=
  let n := (200 * size + 1048576) / 2097152
  toString (n / 100) ++ "." ++ pad2 (n % 100)

/-- the message of the throw at `route.js` line 78. -/
def fileTooLargeMessage (size : Nat) : String :=
  "File size (" ++ toFixed2MB size ++ " MB) exceeds the server limit (" ++
    toString (MAX_FILE_SIZE_API / 1024 / 1024) ++ " MB)."

/-- the 400 body message for an unsupported format (`route.js` line 47). -/
def unsupportedFormatMessage (fmt : String) : String :=
  "Output format \"" ++ fmt ++ "\" is not supported. Supported: " ++
    String.intercalate ", " SUPPORTED_OUTPUT_FORMATS

/-- `fileError.message || 'Failed to process this file.'` — the catch at
`route.js` line 136 substitutes the generic message when the thrown
error carries none (empty string being falsy). -/
def catchMessage (m : String) : String :=
  if m = "" then "Failed to process this file." else m

/-! ## Result shapes (`route.js` lines 124-129 and 134-138) -/

structure SuccessResult where
  originalName : String
  outputName : String
  dataUrl : String
  deriving Repr, DecidableEq

structure ErrorResult where
  originalName : String
  error : String
  deriving Repr, DecidableEq

inductive FileOutcome where
  | success (r : SuccessResult)
  | failure (e : ErrorResult)
  deriving Repr, DecidableEq

/-- the `originalName` field of either outcome variant. -/
def FileOutcome.originalName : FileOutcome → String
  | .success r => r.originalName
  | .failure e => e.originalName

/-! ## The opaque codec call and the format switch (`route.js` lines 84-111) -/

/-- Modelled from the spec: the external codec call (`sharp` encode to
the requested format) is opaque — given the file's bytes it either
returns the converted buffer or fails with the underlying error's
message (§1: "treated as an opaque library call: given bytes + format +
options, returns bytes or fails"). -/
def codecEncode (f : FilePart) : Except String String :=
  if f.codecOk then .ok f.outBase64 else .error f.codecMsg

/-- Outcome of running the `switch (outputFormat)` block for one file:
the raw result of the encode attempt, the number of codec encode
invocations performed, and whether `flatten({background: white})` was
applied before encoding. -/
instance : DecidableEq (Except String String) := fun a b =>
  match a, b with
  | .ok x, .ok y => decidable_of_iff (x = y) (by simp)
  | .ok _, .error _ => isFalse (by simp)
  | .error _, .ok _ => isFalse (by simp)
  | .error x, .error y => decidable_of_iff (x = y) (by simp)

structure EncodeAttempt where
  result : Except String String
  codecCalls : Nat
  flattened : Bool
  deriving Repr, DecidableEq

/-- The `switch (outputFormat)` of `route.js` lines 87-111.  The
`jpeg`/`jpg` case first reads `metadata()` and flattens against a white
background when the source has an alpha channel; the `default` branch
throws before any encode call. -/
def sharpSwitch (fmt : String) (f : FilePart) : EncodeAttempt :=
  if fmt = "webp" then
    -- sharpInstance.webp({ quality: DEFAULT_QUALITY })
    ⟨codecEncode f, 1, false⟩
  else if fmt = "jpeg" ∨ fmt = "jpg" then
    -- metadata(); flatten({background:{r:255,g:255,b:255}}) when hasAlpha
    if f.hasAlpha then ⟨codecEncode f, 1, true⟩
    else ⟨codecEncode f, 1, false⟩
  else if fmt = "png" then
    -- sharpInstance.png({ compressionLevel: 6 })
    ⟨codecEncode f, 1, false⟩
  else if fmt = "avif" then
    -- sharpInstance.avif({ quality: 50 })
    ⟨codecEncode f, 1, false⟩
  else if fmt = "gif" then
    -- sharpInstance.gif()
    ⟨codecEncode f, 1, false⟩
  else
    ⟨.error ("Internal error: Unsupported format " ++ fmt), 0, false⟩

/-! ## Per-entry processing (`route.js` lines 59-141) -/

/-- What processing one `files` entry produced: the outcome pushed onto
`results` or `errors`, the number of codec invocations, and whether the
white-background flatten was applied. -/
structure ProcessTrace where
  outcome : FileOutcome
  codecCalls : Nat
  flattened : Bool
  deriving Repr, DecidableEq

/-- `file.name || 'unknown_image'` (`route.js` line 66): the empty string
is falsy in JS, so an empty name falls back to `unknown_image`. -/
def fallbackName (f : FilePart) : String :=
  if f.name = "" then "unknown_image" else f.name

/-- The body of the `for (const file of files)` loop for a single entry:
the `instanceof File` guard, the `file.name || 'unknown_image'`
fallback, the three validations in source order, the format switch, and
the result/error shaping.  Every thrown message passes through the
`catch` of line 131, hence through `catchMessage`. -/
def processEntry (fmt : String) (e : FormEntry) : ProcessTrace :=
  match e with
  | .nonFile =>
    ⟨.failure ⟨"Unknown file", "Received invalid file data."⟩, 0, false⟩
  | .filePart f =>
    let originalName := fallbackName f
    if f.size = 0 then
      ⟨.failure ⟨originalName, catchMessage "File is empty."⟩, 0, false⟩
    else if ¬ jsStartsWith f.type "image/" then
      ⟨.failure ⟨originalName, catchMessage "Invalid file type (only images are allowed)."⟩, 0, false⟩
    else if f.size > MAX_FILE_SIZE_API then
      ⟨.failure ⟨originalName, catchMessage (fileTooLargeMessage f.size)⟩, 0, false⟩
    else
      let att := sharpSwitch fmt f
      match att.result with
      | .ok b64 =>
        ⟨.success ⟨originalName, outputFilenameOf originalName fmt, dataUrlOf fmt b64⟩,
          att.codecCalls, att.flattened⟩
      | .error m =>
        ⟨.failure ⟨originalName, catchMessage m⟩, att.codecCalls, att.flattened⟩

/-! ## The batch loop (`route.js` lines 33-34 and 59-141) -/

/-- The mutable state of the loop: the `results` and `errors` arrays and
a count of codec invocations performed so far. -/
structure BatchState where
  results : List SuccessResult
  errors : List ErrorResult
  codecCalls : Nat
  deriving Repr, DecidableEq

/-- One iteration: process the entry and push onto `results` or `errors`. -/
def stepEntry (fmt : String) (st : BatchState) (e : FormEntry) : BatchState :=
  let t := processEntry fmt e
  match t.outcome with
  | .success r => ⟨st.results ++ [r], st.errors, st.codecCalls + t.codecCalls⟩
  | .failure er => ⟨st.results, st.errors ++ [er], st.codecCalls + t.codecCalls⟩

/-- The whole `for (const file of files)` loop started from empty arrays. -/
def runBatch (fmt : String) (entries : List FormEntry) : BatchState :=
  entries.foldl (stepEntry fmt) ⟨[], [], 0⟩

/-! ## The `POST` handler (`route.js` lines 31-145) -/

/-- The JSON response: HTTP status plus the `results` and `errors` arrays. -/
structure ApiResponse where
  status : Nat
  results : List SuccessResult
  errors : List ErrorResult
  deriving Repr, DecidableEq

/-- `POST`: resolve the format, reject unsupported formats with 400,
reject an empty file list with 400, otherwise run the loop and answer
200 with both arrays.  The second component counts codec invocations
performed while handling the request. -/
def POST (req : ConvertRequest) : ApiResponse × Nat :=
  let outputFormat := resolveOutputFormat req.outputFormat
  if ¬ SUPPORTED_OUTPUT_FORMATS.contains outputFormat then
    (⟨400, [], [⟨"Invalid Request", unsupportedFormatMessage outputFormat⟩]⟩, 0)
  else if req.files.length = 0 then
    (⟨400, [], [⟨"No Files", "No files were uploaded in the request."⟩]⟩, 0)
  else
    let st := runBatch outputFormat req.files
    (⟨200, st.results, st.errors⟩, st.codecCalls)

/-! ## Derived views of the batch loop -/

/-- the outcome the loop records for one entry. -/
def outcomeOf (fmt : String) (e : FormEntry) : FileOutcome :=
  (processEntry fmt e).outcome

/-- projection selecting success outcomes. -/
def successOf : FileOutcome → Option SuccessResult
  | .success r => some r
  | .failure _ => none

/-- projection selecting failure outcomes. -/
def errorOf : FileOutcome → Option ErrorResult
  | .success _ => none
  | .failure e => some e

/-- the `results` array described directly: the success outcomes of the
entries, in submission order. -/
def batchResults (fmt : String) (entries : List FormEntry) : List SuccessResult :=
  (entries.map (outcomeOf fmt)).filterMap successOf

/-- the `errors` array described directly: the failure outcomes of the
entries, in submission order. -/
def batchErrors (fmt : String) (entries : List FormEntry) : List ErrorResult :=
  (entries.map (outcomeOf fmt)).filterMap errorOf

/-- total codec invocations of a batch. -/
def batchCalls (fmt : String) (entries : List FormEntry) : Nat :=
  (entries.map (fun e => (processEntry fmt e).codecCalls)).sum

/-! ## The jpeg alpha-flattening branch as an image pipeline
(`route.js` lines 91-99) -/

/-- an RGB background colour, as passed to `flatten`. -/
structure RGB where
  r : Nat
  g : Nat
  b : Nat
  deriving Repr, DecidableEq

/-- the abstract state of a decoded image inside the `sharp` pipeline:
whether it still carries an alpha channel, and the background it was
flattened onto, if any. -/
structure SharpImage where
  hasAlpha : Bool
  flattenedOnto : Option RGB
  deriving Repr, DecidableEq

/-- Modelled from the spec: `sharp`'s `flatten({background})` composites
the transparent image onto the opaque background colour, so the result
carries no alpha channel (glossary: "Flatten: compositing a transparent
image onto an opaque background color before encoding to a format
without alpha support"). -/
def flattenImage (bg : RGB) (_img : SharpImage) : SharpImage :=
  { hasAlpha := false, flattenedOnto := some bg }

/-- the image actually handed to the jpeg encoder by the branch at
`route.js` lines 93-98: flattened against white `{r:255,g:255,b:255}`
when the source metadata reports an alpha channel, untouched otherwise. -/
def jpegPipelineImage (img : SharpImage) : SharpImage :=
  if img.hasAlpha then flattenImage ⟨255, 255, 255⟩ img else img

/-! ## The client ZIP packaging loop (`page.jsx`, `handleDownloadAll`,
lines 268-277) -/

/-- one element of the client's `convertedFiles` state, as the server's
`results` array delivers it. -/
structure ConvertedFile where
  originalName : String
  outputName : String
  dataUrl : String
  deriving Repr, DecidableEq

/-- `file.dataUrl.substring(file.dataUrl.indexOf(',') + 1)`: everything
after the first comma; when there is no comma, `indexOf` is `-1` and
`substring(0)` returns the whole string. -/
def extractBase64Data (s : String) : String :=
  match s.data.findIdx? (· = ',') with
  | some i => String.mk (s.data.drop (i + 1))
  | none => s

/-- whether the loop adds this file to the archive: both the extracted
base64 text and the output name must be non-empty (truthy in JS). -/
def zipKeeps (f : ConvertedFile) : Bool :=
  extractBase64Data f.dataUrl ≠ "" ∧ f.outputName ≠ ""

/-- the `convertedFiles.forEach` loop building the archive's entry list:
each kept file contributes `(outputName, base64Data)`, every other file
is skipped with a console warning. -/
def zipAddEntries (files : List ConvertedFile) : List (String × String) :=
  files.foldl
    (fun acc f =>
      let base64Data := extractBase64Data f.dataUrl
      if base64Data ≠ "" ∧ f.outputName ≠ "" then acc ++ [(f.outputName, base64Data)]
      else acc)
    []

/-! ## Helper lemmas about the loop -/

theorem foldl_stepEntry (fmt : String) (entries : List FormEntry) :
    ∀ st : BatchState, entries.foldl (stepEntry fmt) st =
      ⟨st.results ++ batchResults fmt entries,
       st.errors ++ batchErrors fmt entries,
       st.codecCalls + batchCalls fmt entries⟩ := by
  induction entries with
  | nil => intro st; simp [batchResults, batchErrors, batchCalls]
  | cons e es ih =>
    intro st
    rw [List.foldl_cons, ih]
    show (⟨(stepEntry fmt st e).results ++ batchResults fmt es,
          (stepEntry fmt st e).errors ++ batchErrors fmt es,
          (stepEntry fmt st e).codecCalls + batchCalls fmt es⟩ : BatchState) = _
    unfold stepEntry
    cases h : (processEntry fmt e).outcome with
    | success r =>
      simp only [batchResults, batchErrors, batchCalls, List.map_cons,
        List.filterMap_cons, List.sum_cons, outcomeOf, h, successOf, errorOf]
      simp [List.append_assoc, Nat.add_assoc]
    | failure er =>
      simp only [batchResults, batchErrors, batchCalls, List.map_cons,
        List.filterMap_cons, List.sum_cons, outcomeOf, h, successOf, errorOf]
      simp [List.append_assoc, Nat.add_assoc]

theorem runBatch_eq (fmt : String) (entries : List FormEntry) :
    runBatch fmt entries =
      ⟨batchResults fmt entries, batchErrors fmt entries, batchCalls fmt entries⟩ := by
  unfold runBatch
  rw [foldl_stepEntry]
  simp

/-- every outcome is a success or a failure, so the two projections of an
outcome list split its length. -/
theorem length_filterMap_outcomes (l : List FileOutcome) :
    (l.filterMap successOf).length + (l.filterMap errorOf).length = l.length := by
  induction l with
  | nil => simp
  | cons o os ih =>
    cases o with
    | success r => simp [List.filterMap_cons, successOf, errorOf]; omega
    | failure e => simp [List.filterMap_cons, successOf, errorOf]; omega

/-- processing a concatenation processes the two halves independently:
the second half's contribution does not depend on what happened in the
first half. -/
theorem runBatch_append (fmt : String) (xs ys : List FormEntry) :
    runBatch fmt (xs ++ ys) =
      ⟨(runBatch fmt xs).results ++ (runBatch fmt ys).results,
       (runBatch fmt xs).errors ++ (runBatch fmt ys).errors,
       (runBatch fmt xs).codecCalls + (runBatch fmt ys).codecCalls⟩ := by
  simp [runBatch_eq, batchResults, batchErrors, batchCalls, List.filterMap_append]

/-- the archive entry list, described directly: kept files, in order,
each under its output name. -/
theorem zipAddEntries_foldl (files : List ConvertedFile) :
    ∀ acc : List (String × String),
      files.foldl
        (fun acc f =>
          let base64Data := extractBase64Data f.dataUrl
          if base64Data ≠ "" ∧ f.outputName ≠ "" then acc ++ [(f.outputName, base64Data)]
          else acc)
        acc =
      acc ++ (files.filter zipKeeps).map
        (fun f => (f.outputName, extractBase64Data f.dataUrl)) := by
  induction files with
  | nil => intro acc; simp
  | cons f fs ih =>
    intro acc
    rw [List.foldl_cons]
    show List.foldl _
        (if extractBase64Data f.dataUrl ≠ "" ∧ f.outputName ≠ ""
          then acc ++ [(f.outputName, extractBase64Data f.dataUrl)] else acc) fs = _
    by_cases h : extractBase64Data f.dataUrl ≠ "" ∧ f.outputName ≠ ""
    · have hk : zipKeeps f = true := by simp [zipKeeps, h.1, h.2]
      rw [if_pos h, ih, List.filter_cons, if_pos hk, List.map_cons,
        List.append_assoc, List.singleton_append]
    · have hk : ¬ (zipKeeps f = true) := by
        simp only [zipKeeps]
        simpa using h
      rw [if_neg h, ih, List.filter_cons, if_neg hk]

/-- `fileError.message || …` leaves a non-empty message unchanged. -/
theorem catchMessage_of_ne (m : String) (h : m ≠ "") : catchMessage m = m := by
  simp [catchMessage, h]

/-- the too-large message regrouped so its fixed head `File size (` is
exposed. -/
theorem fileTooLargeMessage_eq (n : Nat) :
    fileTooLargeMessage n = "File size (" ++ (toFixed2MB n ++
      (" MB) exceeds the server limit (" ++
        (toString (MAX_FILE_SIZE_API / 1024 / 1024) ++ " MB)."))) := by
  rw [fileTooLargeMessage, String.append_assoc, String.append_assoc, String.append_assoc]

/-- a string starting with `File size (` is never empty. -/
theorem fileTooLargeMessage_ne_empty (n : Nat) : fileTooLargeMessage n ≠ "" := by
  intro h
  rw [fileTooLargeMessage_eq n] at h
  have h2 := congrArg String.data h
  rw [String.data_append] at h2
  exact absurd (List.append_eq_nil.mp h2).1 (by decide)

/-- the sixth character of the too-large message is `s`, which the two
fixed validation messages do not have there. -/
theorem fileTooLargeMessage_get5 (n : Nat) : (fileTooLargeMessage n).data.get? 5 = some 's' := by
  rw [fileTooLargeMessage_eq n]
  have h2 : (("File size (" ++ (toFixed2MB n ++
      (" MB) exceeds the server limit (" ++
        (toString (MAX_FILE_SIZE_API / 1024 / 1024) ++ " MB)."))))).data =
      "File size (".data ++ (toFixed2MB n ++
      (" MB) exceeds the server limit (" ++
        (toString (MAX_FILE_SIZE_API / 1024 / 1024) ++ " MB)."))).data :=
    String.data_append _ _
  rw [h2, List.get?_append (by decide)]
  decide

/-- POST only looks at the resolved output format. -/
theorem POST_congr (files : List FormEntry) (a b : Option String)
    (h : resolveOutputFormat a = resolveOutputFormat b) :
    POST ⟨files, a⟩ = POST ⟨files, b⟩ := by
  simp only [POST, h]

/-- lower-casing is idempotent on characters. -/
theorem jsCharLower_idem (c : Char) : jsCharLower (jsCharLower c) = jsCharLower c := by
  unfold jsCharLower
  by_cases h : 'A' ≤ c ∧ c ≤ 'Z'
  · rw [if_pos h, if_neg]
    intro hcon
    have hz : c.toNat ≤ 90 := by
      have := h.2
      rw [Char.le_def] at this
      exact this
    have ha : 65 ≤ c.toNat := by
      have := h.1
      rw [Char.le_def] at this
      exact this
    have hvalid : (c.toNat + 32).isValidChar := Or.inl (by omega)
    have htn : (Char.ofNat (c.toNat + 32)).toNat = c.toNat + 32 := by
      unfold Char.ofNat
      rw [dif_pos hvalid]
      rfl
    have hle : (Char.ofNat (c.toNat + 32)).toNat ≤ 90 := by
      have := hcon.2
      rw [Char.le_def] at this
      exact this
    omega
  · rw [if_neg h, if_neg h]

/-- lower-casing is idempotent on strings. -/
theorem jsToLower_idem (s : String) : jsToLower (jsToLower s) = jsToLower s := by
  simp [jsToLower, List.map_map, Function.comp_def, jsCharLower_idem]

/-- resolving is invariant under pre-lower-casing the raw field. -/
theorem resolveOutputFormat_lower (s : String) :
    resolveOutputFormat (some (jsToLower s)) = resolveOutputFormat (some s) := by
  simp [resolveOutputFormat, jsToLower_idem]

/-- the 400 branch for an unsupported resolved format. -/
theorem POST_eq_badFormat (files : List FormEntry) (raw : Option String)
    (hfmt : ¬ SUPPORTED_OUTPUT_FORMATS.contains (resolveOutputFormat raw) = true) :
    POST ⟨files, raw⟩ =
      (⟨400, [], [⟨"Invalid Request",
        unsupportedFormatMessage (resolveOutputFormat raw)⟩]⟩, 0) := by
  unfold POST
  rw [if_pos hfmt]

/-- the 400 branch for an empty file list. -/
theorem POST_eq_noFiles (raw : Option String)
    (hfmt : SUPPORTED_OUTPUT_FORMATS.contains (resolveOutputFormat raw) = true) :
    POST ⟨[], raw⟩ = (⟨400, [], [⟨"No Files", "No files were uploaded in the request."⟩]⟩, 0) := by
  unfold POST
  rw [if_neg (not_not_intro hfmt)]
  rfl

/-- the 200 branch: the loop runs and both arrays are returned. -/
theorem POST_eq_ok (files : List FormEntry) (raw : Option String)
    (hfmt : SUPPORTED_OUTPUT_FORMATS.contains (resolveOutputFormat raw) = true)
    (hne : files ≠ []) :
    POST ⟨files, raw⟩ =
      (⟨200, batchResults (resolveOutputFormat raw) files,
             batchErrors (resolveOutputFormat raw) files⟩,
       batchCalls (resolveOutputFormat raw) files) := by
  unfold POST
  rw [if_neg (not_not_intro hfmt), if_neg (by simpa using hne)]
  rw [runBatch_eq]

section Claims

/-- **C1.** For every POST to `/api/convert` whose `outputFormat` is
supported and that carries at least one file entry, the processing loop
produces exactly one outcome per submitted entry: the `results` and
`errors` arrays together have exactly `N` elements, `results` is exactly
the list of success outcomes in original submission order, `errors`
exactly the list of failure outcomes in original submission order, and
processing a concatenation of two entry lists processes each half
independently — a failure among the first entries never prevents or
alters the processing of the later ones. -/
theorem claim_C1_batch_totality (req : ConvertRequest)
    (hfmt : SUPPORTED_OUTPUT_FORMATS.contains (resolveOutputFormat req.outputFormat) = true)
    (hne : req.files ≠ []) :
    (POST req).1.status = 200 ∧
    (POST req).1.results.length + (POST req).1.errors.length = req.files.length ∧
    (POST req).1.results = batchResults (resolveOutputFormat req.outputFormat) req.files ∧
    (POST req).1.errors = batchErrors (resolveOutputFormat req.outputFormat) req.files ∧
    (∀ (fmt : String) (xs ys : List FormEntry), runBatch fmt (xs ++ ys) =
      ⟨(runBatch fmt xs).results ++ (runBatch fmt ys).results,
       (runBatch fmt xs).errors ++ (runBatch fmt ys).errors,
       (runBatch fmt xs).codecCalls + (runBatch fmt ys).codecCalls⟩) := by
  obtain ⟨files, raw⟩ := req
  rw [POST_eq_ok files raw hfmt hne]
  refine ⟨rfl, ?_, rfl, rfl, runBatch_append⟩
  show (batchResults _ _).length + (batchErrors _ _).length = _
  rw [batchResults, batchErrors, length_filterMap_outcomes, List.length_map]

/-- a 2 KB valid PNG, as in the spec's scenario. -/
def okFile : FilePart :=
  { name := "a.png", size := 2048, type := "image/png",
    hasAlpha := false, codecOk := true, outBase64 := "QUJD", codecMsg := "" }

/-- a zero-byte file named `b.png`, as in the spec's scenario. -/
def emptyFile : FilePart :=
  { name := "b.png", size := 0, type := "image/png",
    hasAlpha := true, codecOk := true, outBase64 := "", codecMsg := "" }

/-- the spec's scenario request: `a.png` (valid) and `b.png` (empty),
converted to webp. -/
def scenarioReq : ConvertRequest :=
  { files := [.filePart okFile, .filePart emptyFile], outputFormat := some "webp" }

theorem claim_C1_batch_totality_witness :
    (POST scenarioReq).1.results.length + (POST scenarioReq).1.errors.length = 2 :=
  (claim_C1_batch_totality scenarioReq (by decide) (by decide)).2.1

/-- inversion of the opaque codec call. -/
theorem codecEncode_ok_inv {f : FilePart} {b : String} (h : codecEncode f = .ok b) :
    f.codecOk = true ∧ b = f.outBase64 := by
  unfold codecEncode at h
  split at h
  next hc => simp at h; exact ⟨hc, h.symm⟩
  next => simp at h

/-- whenever the format switch reports an `ok` payload, the codec
succeeded and the payload is the codec's output. -/
theorem sharpSwitch_result_ok (fmt : String) (f : FilePart) (b : String)
    (h : (sharpSwitch fmt f).result = .ok b) : f.codecOk = true ∧ b = f.outBase64 := by
  unfold sharpSwitch at h
  repeat' split at h
  all_goals first
    | exact codecEncode_ok_inv h
    | simp at h

/-- inversion of a successful per-file outcome: the success record is
built from the fallback name, the deterministic output file name, and
the data URL wrapping the codec's base64 payload. -/
theorem processEntry_success_inv (fmt : String) (f : FilePart) (r : SuccessResult)
    (h : (processEntry fmt (.filePart f)).outcome = .success r) :
    r = ⟨fallbackName f, outputFilenameOf (fallbackName f) fmt, dataUrlOf fmt f.outBase64⟩ := by
  simp only [processEntry] at h
  split at h
  · simp at h
  split at h
  · simp at h
  split at h
  · simp at h
  split at h
  next b64 heq =>
    obtain ⟨-, hb⟩ := sharpSwitch_result_ok fmt f b64 heq
    simp only [FileOutcome.success.injEq] at h
    subst hb
    exact h.symm
  next m heq => simp at h

/-- whatever happens to a `File` entry, the recorded `originalName` is
the fallback-adjusted file name. -/
theorem processEntry_originalName (fmt : String) (f : FilePart) :
    ((processEntry fmt (.filePart f)).outcome).originalName = fallbackName f := by
  simp only [processEntry]
  split
  · rfl
  split
  · rfl
  split
  · rfl
  split <;> rfl

/-- **C2 (counterexample).** The claim that `jpg` is accepted as an alias
of `jpeg` is false on the code: a request carrying one perfectly valid
file with `outputFormat = "jpg"` is rejected with status 400 and no
results, because `jpg` is missing from `SUPPORTED_OUTPUT_FORMATS`; and
even for `jpeg` the MIME type embedded in `dataUrl` is `image/jpg`
(built as `image/` + output extension), not `image/jpeg`. -/
theorem claim_C2_jpg_alias_counterexample :
    (POST ⟨[.filePart okFile], some "jpg"⟩).1.status = 400 ∧
    (POST ⟨[.filePart okFile], some "jpg"⟩).1.results = [] ∧
    (POST ⟨[.filePart okFile], some "jpeg"⟩).1.results =
      [⟨"a.png", "a.jpg", "data:image/jpg;base64,QUJD"⟩] ∧
    mimeTypeOf "jpeg" ≠ "image/jpeg" := by
  refine ⟨by decide, by decide, by decide, by decide⟩

/-- **C2 (amended).** A request with `outputFormat "jpg"` is rejected at
request level with status 400 and an `Output format "jpg" is not
supported` error, for any file list — although the conversion switch
itself treats `jpg` exactly as `jpeg` (the `case 'jpg':` arm is
unreachable).  A request with `outputFormat "jpeg"` is accepted, and
every success result it produces carries output extension `jpg`
(output name `<sanitized base>.jpg`) and MIME type `image/jpg` in its
`dataUrl`. -/
theorem claim_C2_jpg_alias_amended :
    (∀ files : List FormEntry, POST ⟨files, some "jpg"⟩ =
      (⟨400, [], [⟨"Invalid Request", unsupportedFormatMessage "jpg"⟩]⟩, 0)) ∧
    (∀ f : FilePart, sharpSwitch "jpg" f = sharpSwitch "jpeg" f) ∧
    SUPPORTED_OUTPUT_FORMATS.contains "jpeg" = true ∧
    (∀ (f : FilePart) (r : SuccessResult),
      (processEntry "jpeg" (.filePart f)).outcome = .success r →
        r.outputName = sanitizeBaseName (pathParseName (fallbackName f)) ++ ".jpg" ∧
        r.dataUrl = "data:image/jpg;base64," ++ f.outBase64) := by
  refine ⟨?_, ?_, by decide, ?_⟩
  · intro files
    exact POST_eq_badFormat files (some "jpg") (by decide)
  · intro f
    rfl
  · intro f r h
    have hr := processEntry_success_inv "jpeg" f r h
    subst hr
    constructor
    · show outputFilenameOf (fallbackName f) "jpeg" = _
      rw [outputFilenameOf, String.append_assoc]
      rfl
    · show dataUrlOf "jpeg" f.outBase64 = _
      rfl

/-- a file of size `MAX_FILE_SIZE_API` with an alpha channel, otherwise
valid. -/
def maxSizeFile : FilePart :=
  { name := "big.png", size := MAX_FILE_SIZE_API, type := "image/png",
    hasAlpha := true, codecOk := true, outBase64 := "QUJD", codecMsg := "" }

/-- **C3.** For every successful conversion, the output name is computed
deterministically from the (fallback-adjusted) input name and the target
format: the source extension is stripped by `path.parse(...).name`,
every character outside `[A-Za-z0-9_-]` is replaced by `_`, and `.` plus
the canonical output extension (`jpeg` mapped to `jpg`) is appended; in
particular source name `My Photo #1.PNG` with target `webp` yields
`My_Photo__1.webp`. -/
theorem claim_C3_output_naming :
    (∀ (fmt : String) (f : FilePart) (r : SuccessResult),
      (processEntry fmt (.filePart f)).outcome = .success r →
        r.outputName =
          sanitizeBaseName (pathParseName (fallbackName f)) ++ "." ++ outputExtensionOf fmt) ∧
    outputFilenameOf "My Photo #1.PNG" "webp" = "My_Photo__1.webp" ∧
    pathParseName "My Photo #1.PNG" = "My Photo #1" ∧
    sanitizeBaseName "My Photo #1" = "My_Photo__1" ∧
    outputExtensionOf "jpeg" = "jpg" := by
  refine ⟨?_, by decide, by decide, by decide, by decide⟩
  intro fmt f r h
  rw [processEntry_success_inv fmt f r h]
  rfl

theorem claim_C3_output_naming_witness :
    (processEntry "webp" (.filePart okFile)).outcome =
      .success ⟨"a.png", "a.webp", "data:image/webp;base64,QUJD"⟩ ∧
    ("a.webp" : String) =
      sanitizeBaseName (pathParseName "a.png") ++ "." ++ outputExtensionOf "webp" :=
  ⟨by decide, by
    have := claim_C3_output_naming.1 "webp" okFile
      ⟨"a.png", "a.webp", "data:image/webp;base64,QUJD"⟩ (by decide)
    simpa [fallbackName, okFile] using this⟩

/-- **C4.** The endpoint answers 200 exactly when the request-level
checks pass (supported resolved format and at least one file entry),
regardless of how many per-file conversions fail; it answers 400 exactly
when the resolved format is unsupported or no files were submitted; and
in the unsupported-format case zero codec invocations happen. -/
theorem claim_C4_status_codes (req : ConvertRequest) :
    ((POST req).1.status = 200 ↔
      (SUPPORTED_OUTPUT_FORMATS.contains (resolveOutputFormat req.outputFormat) = true ∧
        req.files ≠ [])) ∧
    ((POST req).1.status = 400 ↔
      (¬ SUPPORTED_OUTPUT_FORMATS.contains (resolveOutputFormat req.outputFormat) = true ∨
        req.files = [])) ∧
    (¬ SUPPORTED_OUTPUT_FORMATS.contains (resolveOutputFormat req.outputFormat) = true →
      (POST req).2 = 0) := by
  obtain ⟨files, raw⟩ := req
  by_cases hf : SUPPORTED_OUTPUT_FORMATS.contains (resolveOutputFormat raw) = true
  · have hf2 : resolveOutputFormat raw ∈ SUPPORTED_OUTPUT_FORMATS := by simpa using hf
    by_cases he : files = []
    · subst he
      rw [POST_eq_noFiles raw hf]
      exact ⟨by simp, by simp, by simp⟩
    · rw [POST_eq_ok files raw hf he]
      exact ⟨by simp [hf2, he], by simp [hf2, he], by simp [hf2]⟩
  · have hf2 : resolveOutputFormat raw ∉ SUPPORTED_OUTPUT_FORMATS := by simpa using hf
    rw [POST_eq_badFormat files raw hf]
    exact ⟨by simp [hf2], by simp [hf2], by simp⟩

theorem claim_C4_status_codes_witness :
    (POST ⟨[.filePart okFile], some "bmp"⟩).1.status = 400 ∧
    (POST ⟨[.filePart okFile], some "bmp"⟩).2 = 0 :=
  ⟨(claim_C4_status_codes ⟨[.filePart okFile], some "bmp"⟩).2.1.mpr (Or.inl (by decide)),
   (claim_C4_status_codes ⟨[.filePart okFile], some "bmp"⟩).2.2 (by decide)⟩

/-- **C5.** The per-file size ceiling is a strict boundary: a file of
exactly `MAX_FILE_SIZE_API + 1` bytes fails with the too-large message
(which spells out the actual size and the limit in MB), while a file of
exactly `MAX_FILE_SIZE_API` bytes passes the size check and, when
otherwise valid with a working codec and a supported format, converts
successfully. -/
theorem claim_C5_size_boundary :
    (∀ (f : FilePart) (fmt : String), f.size = MAX_FILE_SIZE_API + 1 →
      jsStartsWith f.type "image/" = true →
      (processEntry fmt (.filePart f)).outcome =
        .failure ⟨fallbackName f, fileTooLargeMessage (MAX_FILE_SIZE_API + 1)⟩) ∧
    fileTooLargeMessage (MAX_FILE_SIZE_API + 1) =
      "File size (100.00 MB) exceeds the server limit (100 MB)." ∧
    (∀ (f : FilePart) (fmt : String), f.size = MAX_FILE_SIZE_API →
      jsStartsWith f.type "image/" = true → f.codecOk = true →
      SUPPORTED_OUTPUT_FORMATS.contains fmt = true →
      (processEntry fmt (.filePart f)).outcome =
        .success ⟨fallbackName f, outputFilenameOf (fallbackName f) fmt,
          dataUrlOf fmt f.outBase64⟩) := by
  refine ⟨?_, by decide, ?_⟩
  · intro f fmt hsz ht
    have h0 : ¬ f.size = 0 := by rw [hsz]; decide
    have h2 : f.size > MAX_FILE_SIZE_API := by rw [hsz]; omega
    simp only [processEntry]
    rw [if_neg h0, if_neg (not_not_intro ht), if_pos h2, hsz]
    rw [catchMessage_of_ne _ (fileTooLargeMessage_ne_empty _)]
  · intro f fmt hsz ht hok hfmt
    have h0 : ¬ f.size = 0 := by rw [hsz]; decide
    have h2 : ¬ f.size > MAX_FILE_SIZE_API := by rw [hsz]; omega
    have hcodec : codecEncode f = .ok f.outBase64 := by
      unfold codecEncode; rw [if_pos hok]
    have hres : (sharpSwitch fmt f).result = .ok f.outBase64 := by
      have hmem : fmt ∈ SUPPORTED_OUTPUT_FORMATS := by simpa using hfmt
      simp only [SUPPORTED_OUTPUT_FORMATS, List.mem_cons, List.not_mem_nil, or_false] at hmem
      unfold sharpSwitch
      rcases hmem with h | h | h | h | h <;> subst h <;>
        cases hA : f.hasAlpha <;> simp [hA, hcodec]
    simp only [processEntry]
    rw [if_neg h0, if_neg (not_not_intro ht), if_neg h2]
    rw [hres]

theorem claim_C5_size_boundary_witness :
    (processEntry "webp" (.filePart maxSizeFile)).outcome =
      .success ⟨"big.png", "big.webp", "data:image/webp;base64,QUJD"⟩ ∧
    (processEntry "webp" (.filePart { maxSizeFile with size := MAX_FILE_SIZE_API + 1 })).outcome =
      .failure ⟨"big.png", "File size (100.00 MB) exceeds the server limit (100 MB)."⟩ := by
  constructor
  · have := claim_C5_size_boundary.2.2 maxSizeFile "webp" rfl (by decide) (by decide) (by decide)
    simpa [maxSizeFile, fallbackName] using this
  · have := claim_C5_size_boundary.1 { maxSizeFile with size := MAX_FILE_SIZE_API + 1 } "webp"
      rfl (by decide)
    rw [claim_C5_size_boundary.2.1] at this
    simpa [maxSizeFile, fallbackName] using this

/-- a zero-byte file that is also not an image: the earliest violated
check (empty file) decides the failure reason. -/
def weirdFile : FilePart :=
  { name := "w.txt", size := 0, type := "text/plain",
    hasAlpha := false, codecOk := false, outBase64 := "", codecMsg := "" }

/-- **C6.** Per-file validation runs in a fixed order — empty-file, then
not-an-image, then size ceiling — each with a distinct failure message;
a file violating several checks gets the earliest check's reason (the
empty-file case carries no assumption on the MIME type), and every
validation failure happens with zero codec invocations, i.e. before any
codec call for that file. -/
theorem claim_C6_validation_order :
    (∀ (f : FilePart) (fmt : String), f.size = 0 →
      processEntry fmt (.filePart f) =
        ⟨.failure ⟨fallbackName f, "File is empty."⟩, 0, false⟩) ∧
    (∀ (f : FilePart) (fmt : String), f.size ≠ 0 → jsStartsWith f.type "image/" = false →
      processEntry fmt (.filePart f) =
        ⟨.failure ⟨fallbackName f, "Invalid file type (only images are allowed)."⟩, 0, false⟩) ∧
    (∀ (f : FilePart) (fmt : String), f.size ≠ 0 → jsStartsWith f.type "image/" = true →
      f.size > MAX_FILE_SIZE_API →
      processEntry fmt (.filePart f) =
        ⟨.failure ⟨fallbackName f, fileTooLargeMessage f.size⟩, 0, false⟩) ∧
    ("File is empty." ≠ "Invalid file type (only images are allowed).") ∧
    (∀ n : Nat, fileTooLargeMessage n ≠ "File is empty.") ∧
    (∀ n : Nat, fileTooLargeMessage n ≠ "Invalid file type (only images are allowed).") := by
  refine ⟨?_, ?_, ?_, by decide, ?_, ?_⟩
  · intro f fmt h0
    simp only [processEntry]
    rw [if_pos h0]
    rfl
  · intro f fmt h0 hb
    simp only [processEntry]
    rw [if_neg h0, if_pos (by simp [hb])]
    rfl
  · intro f fmt h0 ht hgt
    simp only [processEntry]
    rw [if_neg h0, if_neg (not_not_intro ht), if_pos hgt,
      catchMessage_of_ne _ (fileTooLargeMessage_ne_empty _)]
  · intro n h
    have h5 := fileTooLargeMessage_get5 n
    rw [h] at h5
    exact absurd h5 (by decide)
  · intro n h
    have h5 := fileTooLargeMessage_get5 n
    rw [h] at h5
    exact absurd h5 (by decide)

theorem claim_C6_validation_order_witness :
    processEntry "webp" (.filePart weirdFile) =
      ⟨.failure ⟨"w.txt", "File is empty."⟩, 0, false⟩ := by
  have := claim_C6_validation_order.1 weirdFile "webp" rfl
  simpa [weirdFile, fallbackName] using this

/-- **C7.** The `outputFormat` field is matched case-insensitively: the
handler lower-cases the field before checking it, so any request behaves
exactly like the same request with the field lower-cased, and in
particular `WEBP` behaves identically to `webp`; when the field is
absent the format defaults to `webp`. -/
theorem claim_C7_format_case_default :
    (∀ files : List FormEntry, POST ⟨files, some "WEBP"⟩ = POST ⟨files, some "webp"⟩) ∧
    (∀ files : List FormEntry, POST ⟨files, none⟩ = POST ⟨files, some "webp"⟩) ∧
    (∀ (files : List FormEntry) (s : String),
      POST ⟨files, some s⟩ = POST ⟨files, some (jsToLower s)⟩) ∧
    resolveOutputFormat (some "WEBP") = "webp" ∧
    resolveOutputFormat none = "webp" ∧
    SUPPORTED_OUTPUT_FORMATS.contains (resolveOutputFormat (some "WEBP")) = true := by
  refine ⟨?_, ?_, ?_, by decide, by decide, by decide⟩
  · intro files
    exact POST_congr files _ _ (by decide)
  · intro files
    exact POST_congr files _ _ (by decide)
  · intro files s
    exact POST_congr files _ _ (resolveOutputFormat_lower s).symm

/-- **C8.** Converting to jpeg never fails because of alpha: the
per-file outcome for `jpeg` is the same whether or not the source has an
alpha channel; the image handed to the jpeg encoder carries no alpha
channel (a source with alpha is first flattened against the white
background `{r:255,g:255,b:255}`); and a source without alpha is handed
to the encoder directly, with no flatten step. -/
theorem claim_C8_jpeg_alpha_flatten :
    (∀ f : FilePart,
      (processEntry "jpeg" (.filePart { f with hasAlpha := true })).outcome =
      (processEntry "jpeg" (.filePart { f with hasAlpha := false })).outcome) ∧
    (∀ img : SharpImage, (jpegPipelineImage img).hasAlpha = false) ∧
    (∀ img : SharpImage, img.hasAlpha = true →
      jpegPipelineImage img = flattenImage ⟨255, 255, 255⟩ img) ∧
    (∀ img : SharpImage, img.hasAlpha = false → jpegPipelineImage img = img) ∧
    (∀ f : FilePart, f.size ≠ 0 → jsStartsWith f.type "image/" = true →
      ¬ f.size > MAX_FILE_SIZE_API →
      (processEntry "jpeg" (.filePart f)).flattened = f.hasAlpha) := by
  refine ⟨?_, ?_, ?_, ?_, ?_⟩
  · intro f
    by_cases h0 : f.size = 0
    · simp [processEntry, h0, fallbackName]
    by_cases h1 : jsStartsWith f.type "image/" = true
    · by_cases h2 : f.size > MAX_FILE_SIZE_API
      · simp [processEntry, h0, h1, h2, fallbackName]
      · by_cases h3 : f.codecOk = true
        · simp [processEntry, sharpSwitch, codecEncode, h0, h1, h2, h3, fallbackName]
        · simp [processEntry, sharpSwitch, codecEncode, h0, h1, h2, h3, fallbackName]
    · simp [processEntry, h0, h1, fallbackName]
  · intro img
    unfold jpegPipelineImage
    cases h : img.hasAlpha with
    | true => simp [flattenImage]
    | false => simp [h]
  · intro img h
    unfold jpegPipelineImage
    rw [if_pos h]
  · intro img h
    unfold jpegPipelineImage
    rw [if_neg (by simp [h])]
  · intro f h0 h1 h2
    simp only [processEntry]
    rw [if_neg h0, if_neg (not_not_intro h1), if_neg h2]
    cases hA : f.hasAlpha <;>
      cases h3 : f.codecOk <;>
        simp [sharpSwitch, codecEncode, hA, h3]

theorem claim_C8_jpeg_alpha_flatten_witness :
    (processEntry "jpeg" (.filePart maxSizeFile)).flattened = true ∧
    jpegPipelineImage ⟨true, none⟩ = flattenImage ⟨255, 255, 255⟩ ⟨true, none⟩ ∧
    jpegPipelineImage ⟨false, none⟩ = ⟨false, none⟩ :=
  ⟨by
    have := claim_C8_jpeg_alpha_flatten.2.2.2.2 maxSizeFile (by decide) (by decide) (by decide)
    simpa [maxSizeFile] using this,
   claim_C8_jpeg_alpha_flatten.2.2.1 ⟨true, none⟩ rfl,
   claim_C8_jpeg_alpha_flatten.2.2.2.1 ⟨false, none⟩ rfl⟩

/-- **C9.** When building the download-all ZIP archive, an entry whose
extracted base64 payload or whose output name is missing (empty) is
skipped, and every remaining entry is added under its output name, in
order; the loop is total, so a missing entry never aborts the archive
build.  Concretely, of four entries where one lacks a name and one lacks
a payload, exactly the other two are archived. -/
theorem claim_C9_zip_skip :
    (∀ files : List ConvertedFile,
      zipAddEntries files =
        (files.filter zipKeeps).map (fun f => (f.outputName, extractBase64Data f.dataUrl))) ∧
    zipAddEntries
      [⟨"a.png", "a.webp", "data:image/webp;base64,QUJD"⟩,
       ⟨"b.png", "", "data:image/webp;base64,REVG"⟩,
       ⟨"c.png", "c.webp", "data:image/webp;base64,"⟩,
       ⟨"d.png", "d.webp", "data:image/webp;base64,R0hJ"⟩] =
      [("a.webp", "QUJD"), ("d.webp", "R0hJ")] := by
  refine ⟨?_, by decide⟩
  intro files
  rw [zipAddEntries, zipAddEntries_foldl files []]
  simp

/-- a valid image file whose `name` is the empty string. -/
def noNameFile : FilePart :=
  { name := "", size := 123, type := "image/png",
    hasAlpha := false, codecOk := true, outBase64 := "QQ==", codecMsg := "" }

/-- **C10.** A `files` entry that is not a `File` object is recorded as a
failure with `originalName` `Unknown file` and message `Received invalid
file data.`, in place, with all other entries still processed (the batch
neither aborts nor drops the entry); and a `File` whose name is empty is
reported under `originalName` `unknown_image` whatever its outcome.
Every batch still yields exactly one outcome per entry. -/
theorem claim_C10_invalid_entries :
    (∀ fmt : String, processEntry fmt .nonFile =
      ⟨.failure ⟨"Unknown file", "Received invalid file data."⟩, 0, false⟩) ∧
    (∀ (fmt : String) (xs ys : List FormEntry),
      (runBatch fmt (xs ++ .nonFile :: ys)).errors =
        (runBatch fmt xs).errors ++
          ⟨"Unknown file", "Received invalid file data."⟩ :: (runBatch fmt ys).errors ∧
      (runBatch fmt (xs ++ .nonFile :: ys)).results =
        (runBatch fmt xs).results ++ (runBatch fmt ys).results) ∧
    (∀ (fmt : String) (f : FilePart), f.name = "" →
      ((processEntry fmt (.filePart f)).outcome).originalName = "unknown_image") ∧
    (∀ (fmt : String) (entries : List FormEntry),
      (runBatch fmt entries).results.length + (runBatch fmt entries).errors.length =
        entries.length) := by
  refine ⟨fun _ => rfl, ?_, ?_, ?_⟩
  · intro fmt xs ys
    constructor
    · simp [runBatch_eq, batchErrors, List.filterMap_append, List.filterMap_cons,
        List.filterMap_map, outcomeOf, errorOf, processEntry]
    · simp [runBatch_eq, batchResults, List.filterMap_append, List.filterMap_cons,
        List.filterMap_map, outcomeOf, successOf, processEntry]
  · intro fmt f h
    rw [processEntry_originalName fmt f, fallbackName, if_pos h]
  · intro fmt entries
    rw [runBatch_eq]
    show (batchResults _ _).length + (batchErrors _ _).length = _
    rw [batchResults, batchErrors, length_filterMap_outcomes, List.length_map]

theorem claim_C10_invalid_entries_witness :
    ((processEntry "webp" (.filePart noNameFile)).outcome).originalName = "unknown_image" :=
  claim_C10_invalid_entries.2.2.1 "webp" noNameFile rfl

theorem claim_C2_jpg_alias_amended_witness :
    (processEntry "jpeg" (.filePart maxSizeFile)).outcome =
      .success ⟨"big.png", "big.jpg", "data:image/jpg;base64,QUJD"⟩ ∧
    ("big.jpg" : String) = sanitizeBaseName (pathParseName "big.png") ++ ".jpg" :=
  ⟨by decide,
    by
      have := (claim_C2_jpg_alias_amended.2.2.2 maxSizeFile
        ⟨"big.png", "big.jpg", "data:image/jpg;base64,QUJD"⟩ (by decide)).1
      simpa [fallbackName, maxSizeFile] using this⟩

end Claims

end ImageConverter
